import Mathlib

/-!
Shallow embedding of the locomotion / collision / combat core of the
Zelda-like browser demo (files src/js/core.js, src/js/main.js and the
Camera module).  Positions and scalars are embedded as rationals: the
JavaScript code computes with IEEE doubles, but every branch of the
embedded logic compares plain arithmetic expressions, which we model
exactly over ℚ.  The only transcendental operations in the embedded
code are Math.sqrt (inside THREE's distanceTo and the explicit radial
test) and angleTo; square-root comparisons are embedded by the
equivalent squared comparison guarded by positivity of the bound
(lemma sqrtLtB_iff proves the equivalence with Real.sqrt), and the
45-degree cone test by its cosine characterisation.  Vector
normalisations whose lengths are irrational are parametrised by the
length L, supplied to theorems together with the defining hypothesis
L * L = squared length.
-/

namespace Zelda

/-- Three-component vector of rationals, modelling THREE.Vector3 as used
by the engine (positions, directions). -/
structure Vec3 where
  x : ℚ
  y : ℚ
  z : ℚ
  deriving DecidableEq

instance : Add Vec3 := ⟨fun a b => ⟨a.x + b.x, a.y + b.y, a.z + b.z⟩⟩

instance : Sub Vec3 := ⟨fun a b => ⟨a.x - b.x, a.y - b.y, a.z - b.z⟩⟩

instance : SMul ℚ Vec3 := ⟨fun c v => ⟨c * v.x, c * v.y, c * v.z⟩⟩

@[simp] theorem Vec3.add_x (a b : Vec3) : (a + b).x = a.x + b.x := rfl

@[simp] theorem Vec3.add_y (a b : Vec3) : (a + b).y = a.y + b.y := rfl

@[simp] theorem Vec3.add_z (a b : Vec3) : (a + b).z = a.z + b.z := rfl

@[simp] theorem Vec3.sub_x (a b : Vec3) : (a - b).x = a.x - b.x := rfl

@[simp] theorem Vec3.sub_y (a b : Vec3) : (a - b).y = a.y - b.y := rfl

@[simp] theorem Vec3.sub_z (a b : Vec3) : (a - b).z = a.z - b.z := rfl

@[simp] theorem Vec3.smul_x (c : ℚ) (v : Vec3) : (c • v).x = c * v.x := rfl

@[simp] theorem Vec3.smul_y (c : ℚ) (v : Vec3) : (c • v).y = c * v.y := rfl

@[simp] theorem Vec3.smul_z (c : ℚ) (v : Vec3) : (c • v).z = c * v.z := rfl

/-- Squared Euclidean distance between two points; the code's
`a.distanceTo(b)` is `Math.sqrt` of this quantity. -/
def dsq3 (a b : Vec3) : ℚ :=
  (b.x - a.x) * (b.x - a.x) + (b.y - a.y) * (b.y - a.y) + (b.z - a.z) * (b.z - a.z)

/-- Boolean test modelling the JavaScript comparison
`Math.sqrt s < b` (for a nonnegative radicand `s`): equivalent to
`0 < b ∧ s < b * b`.  Lemma `sqrtLtB_iff` below proves the equivalence
with the real square root. -/
def sqrtLtB (s b : ℚ) : Bool :=
  decide (0 < b ∧ s < b * b)

/-- Static obstacle descriptor owned by the Collision World
(`engine.collidables` in core.js).  The source dispatches on a type
string: 'tree' | 'sign' | 'rock' are the radial (cylindrical-footprint)
obstacles, 'house' is the box obstacle with `size.x` / `size.z`
half-extent data.  Every collidable built by the scenery code carries a
position, so the source's skip-if-no-position guard is vacuous here. -/
inductive Collidable where
  | radial (pos : Vec3) (radius : ℚ)
  | box (pos : Vec3) (sizeX sizeZ : ℚ)
  deriving DecidableEq

/-- Per-obstacle blocking test, embedding the body of the `switch` in
Core.checkCollision (core.js lines 312-345).  `playerRadius` is
`this.player.radius`. -/
def collidableBlocks (playerRadius : ℚ) (position : Vec3) : Collidable → Bool
  | .radial cpos radius =>
      let dx := position.x - cpos.x
      let dz := position.z - cpos.z
      let adjustedRadius := radius * (4/5)
      sqrtLtB (dx * dx + dz * dz) (playerRadius + adjustedRadius)
  | .box cpos sizeX sizeZ =>
      let minX := cpos.x - sizeX / 2 - playerRadius
      let maxX := cpos.x + sizeX / 2 + playerRadius
      let minZ := cpos.z - sizeZ / 2 - playerRadius
      let maxZ := cpos.z + sizeZ / 2 + playerRadius
      decide (minX < position.x ∧ position.x < maxX ∧
              minZ < position.z ∧ position.z < maxZ)

/-- Core.checkCollision (core.js lines 295-349): short-circuits to
false above height 3.0, otherwise blocked as soon as any collidable's
test fires. -/
def checkCollision (collidables : List Collidable) (playerRadius : ℚ)
    (position : Vec3) : Bool :=
  if 3 < position.y then false
  else collidables.any (collidableBlocks playerRadius position)

/-- Candidate position sliding along X only: `slideX` in Player.update
keeps the current position (including height) and takes only the new X. -/
def slideX (pos newPos : Vec3) : Vec3 := ⟨newPos.x, pos.y, pos.z⟩

/-- Candidate position sliding along Z only. -/
def slideZ (pos newPos : Vec3) : Vec3 := ⟨pos.x, pos.y, newPos.z⟩

/-- Candidate elevated by the small step height 0.1
(`elevatedPosition` in Player.update). -/
def elevated (newPos : Vec3) : Vec3 := ⟨newPos.x, newPos.y + 1/10, newPos.z⟩

/-- Movement resolution fallback chain of Player.update (main.js lines
568-598): full candidate, X-only slide, Z-only slide, elevated step;
if all four are blocked the position is left unchanged. -/
def resolveMovement (blocked : Vec3 → Bool) (pos newPos : Vec3) : Vec3 :=
  if !(blocked newPos) then newPos
  else if !(blocked (slideX pos newPos)) then slideX pos newPos
  else if !(blocked (slideZ pos newPos)) then slideZ pos newPos
  else if !(blocked (elevated newPos)) then elevated newPos
  else pos

/-- Enemy actor state relevant to combat: position and health
(enemy.health starts at 2, see enemy.js). -/
structure EnemyA where
  pos : Vec3
  health : ℚ
  deriving DecidableEq

/-- Combat-side engine state.  Enemies are keyed by a numeric identity
standing for JavaScript object identity (the source compares enemies
with ===); `currentTarget` stores the key of the locked enemy, `none`
for the source's null.  `playerFacing` is the player's forward vector,
i.e. local (0,0,1) taken through the player's quaternion; the engine
only ever orients the player by yaw (lookAt of a horizontal direction),
so facing is a horizontal unit vector. -/
structure Engine where
  playerPos : Vec3
  playerFacing : Vec3
  playerHealth : ℚ
  isAttacking : Bool
  targetLocked : Bool
  currentTarget : Option Nat
  enemies : List (Nat × EnemyA)
  cameraPos : Vec3
  deriving DecidableEq

/-- Lookup of an enemy by identity key. -/
def lookupEnemy (e : Engine) (id : Nat) : Option EnemyA :=
  (e.enemies.find? (fun q => q.1 == id)).map (fun q => q.2)

/-- Effective attack range in Player.attack (main.js line 728): 3.0 for
the locked-on target, 2.0 otherwise. -/
def attackRange (locked isTarget : Bool) : ℚ :=
  if locked && isTarget then 3 else 2

/-- Range comparison of the attack hit test:
`player.position.distanceTo(enemy.position) < range`, i.e. the full 3-D
Euclidean distance compared against the effective range. -/
def attackRangeCheck (ppos epos : Vec3) (range : ℚ) : Bool :=
  sqrtLtB (dsq3 ppos epos) range

/-- Modelled from the spec: the spec's section 4.4 step 2 describes the
hit-test distance as the "planar distance to enemy"; this is the
corresponding planar (X/Z only) range comparison, to be measured
against the source's `attackRangeCheck`. -/
def planarRangeCheck (ppos epos : Vec3) (range : ℚ) : Bool :=
  sqrtLtB ((epos.x - ppos.x) * (epos.x - ppos.x) +
           (epos.z - ppos.z) * (epos.z - ppos.z)) range

/-- Cone test of Player.attack (main.js lines 718-727):
`forward.angleTo(toEnemy) < Math.PI / 4` where `toEnemy` is the
3-D-normalised vector to the enemy with its y zeroed afterwards (the
normalisation cancels inside angleTo, so the test is the angle between
`facing` and the horizontal offset (dx, 0, dz)).  Embedded by the
cosine characterisation: the angle is below 45 degrees exactly when the
dot product is positive and twice its square exceeds the product of the
squared norms.  When the horizontal offset is zero the dot product is
zero and the test is false, matching the NaN-compare of the source. -/
def inAttackAngle (facing : Vec3) (dx dz : ℚ) : Bool :=
  decide (0 < facing.x * dx + facing.z * dz ∧
    (facing.x * facing.x + facing.y * facing.y + facing.z * facing.z) *
        (dx * dx + dz * dz) <
      2 * ((facing.x * dx + facing.z * dz) * (facing.x * dx + facing.z * dz)))

/-- Sword-tip point of Player.attack (main.js line 734): local
(0, 0, 1.5) through the player's quaternion, added to the player
position. -/
def swordTip (ppos pfacing : Vec3) : Vec3 :=
  ppos + (3/2 : ℚ) • pfacing

/-- Hit condition of Player.attack (main.js lines 739-741): locked-on
target within locked range, OR within default range and inside the
45-degree cone, OR enemy within 1.5 of the sword tip. -/
def hitCondition (locked isTarget : Bool) (ppos pfacing : Vec3)
    (en : EnemyA) : Bool :=
  let range := attackRange locked isTarget
  let dx := en.pos.x - ppos.x
  let dz := en.pos.z - ppos.z
  (locked && isTarget && attackRangeCheck ppos en.pos range) ||
  (attackRangeCheck ppos en.pos range && inAttackAngle pfacing dx dz) ||
  sqrtLtB (dsq3 en.pos (swordTip ppos pfacing)) (3/2)

/-- Effect of a landed hit on the enemy (main.js lines 746-781):
health decremented, knockback along the 3-D-normalised direction from
player to enemy with the y component zeroed (applied to x and z only,
scaled by 1), height clamped to a minimum of 0.8, health floored at 0.
`L` stands for the Euclidean length of `en.pos - ppos` (the value
Math.sqrt returns inside normalize), supplied by theorems together
with its defining equation.  The visual effects (hit sparks, red
flash, death explosion) touch no simulation state and are omitted. -/
def applyHit (ppos : Vec3) (en : EnemyA) (L : ℚ) : EnemyA :=
  let h1 := en.health - 1
  let kx := (en.pos.x - ppos.x) / L * 1
  let kz := (en.pos.z - ppos.z) / L * 1
  ⟨⟨en.pos.x + kx, max en.pos.y (4/5), en.pos.z + kz⟩, max 0 h1⟩

/-- Per-enemy body of the mid-swing hit pass: the enemy is modified
exactly when the hit condition fires. -/
def hitEnemy (locked isTarget : Bool) (ppos pfacing : Vec3) (en : EnemyA)
    (L : ℚ) : EnemyA :=
  if hitCondition locked isTarget ppos pfacing en then applyHit ppos en L
  else en

/-- Mid-swing hit pass of Player.attack over the whole enemy list
(`engine.enemies.forEach`, main.js lines 712-812).  `L` gives each
enemy's player-to-enemy Euclidean length for the knockback
normalisation.  The pass never touches the lock state; death removal
happens in a later delayed callback, modelled by `removeDeadEnemy`. -/
def strikeEnemies (e : Engine) (L : Nat → ℚ) : Engine :=
  { e with enemies := e.enemies.map (fun q =>
      (q.1, hitEnemy e.targetLocked (decide (e.currentTarget = some q.1))
              e.playerPos e.playerFacing q.2 (L q.1))) }

/-- Removal of the first list entry with the given identity key,
modelling `engine.enemies.indexOf(enemy)` followed by `splice(index, 1)`
(a no-op when the enemy is absent, as when indexOf yields -1). -/
def removeFirst (id : Nat) : List (Nat × EnemyA) → List (Nat × EnemyA)
  | [] => []
  | q :: qs => if q.1 = id then qs else q :: removeFirst id qs

/-- Death-removal callback of Player.attack (main.js lines 790-808):
the dead enemy is removed from the live set, and if it was the current
lock target the lock state is force-cleared. -/
def removeDeadEnemy (e : Engine) (id : Nat) : Engine :=
  let e1 : Engine := { e with enemies := removeFirst id e.enemies }
  if e.currentTarget = some id then
    { e1 with currentTarget := none, targetLocked := false }
  else e1

/-- Composite of the mid-swing hit pass and the subsequent
death-removal callback for enemy `id`. -/
def deathPath (e : Engine) (id : Nat) (L : Nat → ℚ) : Engine :=
  removeDeadEnemy (strikeEnemies e L) id

/-- Facing snap at the start of Player.attack (main.js lines 663-675):
while locked on a live target, the player is turned toward the target
on the horizontal plane before the swing.  `L` stands for the
Euclidean length of the player-to-target vector (the code normalises
in 3-D and then zeroes y). -/
def faceTargetIfLocked (e : Engine) (L : ℚ) : Engine :=
  match e.targetLocked, e.currentTarget with
  | true, some id =>
      match lookupEnemy e id with
      | some en =>
          { e with playerFacing :=
              ⟨(en.pos.x - e.playerPos.x) / L, 0,
               (en.pos.z - e.playerPos.z) / L⟩ }
      | none => e
  | _, _ => e

/-- Synchronous part of Player.attack (main.js lines 656-712): no-op
when already attacking, otherwise sets the attacking flag, snaps the
facing when locked, and starts the swing.  The returned Boolean records
whether a new swing was started, i.e. whether the swing-animation timer
and the delayed mid-swing hit pass were scheduled. -/
def attack (e : Engine) (L : ℚ) : Engine × Bool :=
  if e.isAttacking then (e, false)
  else (faceTargetIfLocked { e with isAttacking := true } L, true)

/-- Single fold step of the closest-enemy scan in Camera.toggleTargetLock
(part_001 lines 218-224): starting from `closestDistance = Infinity`,
an enemy replaces the accumulator when its distance is below both the
current best and the acquisition radius 15.  Distances are compared in
squared form (Math.sqrt is monotone, and 15 is positive). -/
def closestStep (ppos : Vec3) (acc : Option ((Nat × EnemyA) × ℚ))
    (q : Nat × EnemyA) : Option ((Nat × EnemyA) × ℚ) :=
  match acc with
  | none =>
      if dsq3 ppos q.2.pos < 15 * 15 then some (q, dsq3 ppos q.2.pos)
      else none
  | some (b, bd) =>
      if dsq3 ppos q.2.pos < bd ∧ dsq3 ppos q.2.pos < 15 * 15 then
        some (q, dsq3 ppos q.2.pos)
      else some (b, bd)

/-- Closest-enemy scan of Camera.toggleTargetLock. -/
def findClosest (ppos : Vec3) (enemies : List (Nat × EnemyA)) :
    Option ((Nat × EnemyA) × ℚ) :=
  enemies.foldl (closestStep ppos) none

/-- Camera.toggleTargetLock (part_001 lines 207-252): early-returns when
the enemy list is empty; when not locked, acquires the closest enemy
within radius 15 and turns the player toward it on the horizontal plane
(facing normalised with length `L` as in `faceTargetIfLocked`);
when locked, clears the lock state.  The reticle DOM element is
visual-only and omitted. -/
def toggleTargetLock (e : Engine) (L : ℚ) : Engine :=
  if e.enemies.length = 0 then e
  else if e.targetLocked = false then
    match findClosest e.playerPos e.enemies with
    | some ((id, en), _) =>
        { e with currentTarget := some id, targetLocked := true,
                 playerFacing :=
                   ⟨(en.pos.x - e.playerPos.x) / L, 0,
                    (en.pos.z - e.playerPos.z) / L⟩ }
    | none => e
  else { e with targetLocked := false, currentTarget := none }

/-- Player.takeDamage (main.js lines 1194-1226): health clamped at 0
from below, knockback away from the damage source (the locked target's
position when one exists, else the camera position), scaled by 2 with
the vertical component then overwritten to 1.  `L` is the Euclidean
length of the player-to-source vector.  The flash interval, game-over
alert and hit effect touch no simulation state and are omitted. -/
def takeDamage (e : Engine) (amount L : ℚ) : Engine :=
  let newHealth := max 0 (e.playerHealth - amount)
  let src :=
    match e.currentTarget with
    | some id =>
        match lookupEnemy e id with
        | some en => en.pos
        | none => e.cameraPos
    | none => e.cameraPos
  let kx := (e.playerPos.x - src.x) / L * 2
  let kz := (e.playerPos.z - src.z) / L * 2
  { e with playerHealth := newHealth,
           playerPos := ⟨e.playerPos.x + kx, e.playerPos.y + 1,
                         e.playerPos.z + kz⟩ }

/-- Held-input flags for one tick (engine.keys in core.js). -/
structure Keys where
  forward : Bool
  backward : Bool
  left : Bool
  right : Bool
  jump : Bool
  deriving DecidableEq

/-- Locomotion state of the player actor: position, vertical velocity
(the only meaningfully used velocity component) and the grounded flag. -/
structure PState where
  pos : Vec3
  velY : ℚ
  onGround : Bool
  deriving DecidableEq

/-- Rotation of a vector about the world Y axis, with the cosine and
sine of the yaw angle supplied as parameters (the free-movement basis
applies `new THREE.Euler(0, cameraRotation.y, 0)` to (0,0,-1) and
(1,0,0), main.js lines 482-483). -/
def rotY (c s : ℚ) (v : Vec3) : Vec3 :=
  ⟨c * v.x + s * v.z, v.y, -s * v.x + c * v.z⟩

/-- Direction accumulation of Player.update (main.js lines 487-490):
add and subtract the forward and right basis vectors per held key, in
the source's order. -/
def accumDirection (k : Keys) (fwd rgt : Vec3) : Vec3 :=
  let d0 : Vec3 := ⟨0, 0, 0⟩
  let d1 := if k.forward then d0 + fwd else d0
  let d2 := if k.backward then d1 - fwd else d1
  let d3 := if k.right then d2 + rgt else d2
  let d4 := if k.left then d3 - rgt else d3
  d4

/-- Right basis vector in target-locked mode (main.js line 470):
cross product of the world up vector with the forward vector, then
normalised; for a horizontal forward vector the cross product is
(fwd.z, 0, -fwd.x) and `Lr` stands for its length. -/
def lockedRight (fwd : Vec3) (Lr : ℚ) : Vec3 :=
  ⟨fwd.z / Lr, 0, -fwd.x / Lr⟩

/-- Movement part of one locomotion tick (main.js lines 561-598):
when the accumulated direction is non-zero (`moving`), the normalised
direction (`dirUnit`, supplied since the normalising length is
irrational in general) is scaled by speed times deltaTime, and the
resulting candidate goes through the sliding fallback chain. -/
def moveStep (blocked : Vec3 → Bool) (speed dt : ℚ) (moving : Bool)
    (dirUnit : Vec3) (p : PState) : PState :=
  if moving then
    let newPos := p.pos + (speed * dt) • dirUnit
    { p with pos := resolveMovement blocked p.pos newPos }
  else p

/-- Jump trigger (main.js lines 629-633): honoured only while grounded;
sets the vertical velocity to the jump impulse and leaves the ground. -/
def jumpStep (jumpKey : Bool) (jumpHeight : ℚ) (p : PState) : PState :=
  if jumpKey && p.onGround then
    { p with velY := jumpHeight, onGround := false }
  else p

/-- Gravity integration (main.js lines 636-652): applied only while
airborne; integrates velocity by 9.8 times deltaTime, then position;
landing at or below the ground reference height 1.0 clamps the height,
zeroes the velocity and re-grounds the actor. -/
def gravityStep (dt : ℚ) (p : PState) : PState :=
  if p.onGround then p
  else
    let v := p.velY - (49/5) * dt
    let y := p.pos.y + v * dt
    if y ≤ 1 then ⟨⟨p.pos.x, 1, p.pos.z⟩, 0, true⟩
    else ⟨⟨p.pos.x, y, p.pos.z⟩, v, false⟩

/-- One locomotion tick of Player.update in the source's order:
movement resolution, then jump trigger, then gravity. -/
def tick (blocked : Vec3 → Bool) (speed jumpHeight dt : ℚ) (moving : Bool)
    (dirUnit : Vec3) (jumpKey : Bool) (p : PState) : PState :=
  gravityStep dt (jumpStep jumpKey jumpHeight
    (moveStep blocked speed dt moving dirUnit p))

/-- Per-tick input record for iterated runs: whether the accumulated
direction was non-zero, its normalised value, the jump flag and the
frame's deltaTime. -/
structure TickInput where
  moving : Bool
  dirUnit : Vec3
  jumpKey : Bool
  dt : ℚ
  deriving DecidableEq

/-- Iterated locomotion ticks over a list of per-tick inputs. -/
def runTicks (blocked : Vec3 → Bool) (speed jumpHeight : ℚ)
    (ins : List TickInput) (p : PState) : PState :=
  ins.foldl (fun st i => tick blocked speed jumpHeight i.dt i.moving
    i.dirUnit i.jumpKey st) p

/-- Concrete engine state: player locked onto the single live enemy one
unit straight ahead (enemy health 1, one hit from death). -/
def engineLockedOne : Engine :=
  { playerPos := ⟨0, 1, 0⟩, playerFacing := ⟨0, 0, 1⟩, playerHealth := 3,
    isAttacking := false, targetLocked := true, currentTarget := some 0,
    enemies := [(0, ⟨⟨0, 1, 1⟩, 1⟩)], cameraPos := ⟨0, 2, -3⟩ }

/-- Concrete engine state: lock flag and target reference still set
while the live-enemy list is empty. -/
def engineLockedNoEnemies : Engine :=
  { playerPos := ⟨0, 1, 0⟩, playerFacing := ⟨0, 0, 1⟩, playerHealth := 3,
    isAttacking := false, targetLocked := true, currentTarget := some 0,
    enemies := [], cameraPos := ⟨0, 2, -3⟩ }

/-- Concrete engine state: not locked, two enemies at squared distances
9 and 81 from the player. -/
def engineFreeTwoEnemies : Engine :=
  { playerPos := ⟨0, 1, 0⟩, playerFacing := ⟨0, 0, 1⟩, playerHealth := 3,
    isAttacking := false, targetLocked := false, currentTarget := none,
    enemies := [(0, ⟨⟨0, 1, 3⟩, 2⟩), (1, ⟨⟨0, 1, 10⟩, 2⟩)],
    cameraPos := ⟨0, 2, -3⟩ }

/-- Concrete engine state: the player is mid-attack. -/
def engineMidAttack : Engine :=
  { playerPos := ⟨0, 1, 0⟩, playerFacing := ⟨0, 0, 1⟩, playerHealth := 3,
    isAttacking := true, targetLocked := false, currentTarget := none,
    enemies := [(0, ⟨⟨0, 1, 1⟩, 2⟩)], cameraPos := ⟨0, 2, -3⟩ }

/-- Faithfulness of the squared comparison: `sqrtLtB s b` holds exactly
when the real square root of `s` is below `b`, which is the comparison
the JavaScript code performs (all embedded radicands are sums of
squares, hence nonnegative). -/
theorem sqrtLtB_iff (s b : ℚ) :
    sqrtLtB s b = true ↔ Real.sqrt (s : ℝ) < (b : ℝ) := by
  unfold sqrtLtB
  rw [decide_eq_true_iff]
  constructor
  · rintro ⟨hb, hlt⟩
    have hb' : (0 : ℝ) < (b : ℝ) := by exact_mod_cast hb
    refine (Real.sqrt_lt' hb').mpr ?_
    have hlt' : (s : ℝ) < (b : ℝ) * (b : ℝ) := by exact_mod_cast hlt
    nlinarith
  · intro h
    have hb' : (0 : ℝ) < (b : ℝ) := lt_of_le_of_lt (Real.sqrt_nonneg _) h
    refine ⟨by exact_mod_cast hb', ?_⟩
    have hlt' := (Real.sqrt_lt' hb').mp h
    have : (s : ℝ) < (b : ℝ) * (b : ℝ) := by nlinarith
    exact_mod_cast this

/-- Below the height-3 escape valve, the collision query depends only
on the horizontal coordinates of the candidate position. -/
theorem checkCollision_y_indep (w : List Collidable) (pr : ℚ) (a b : Vec3)
    (hx : a.x = b.x) (hz : a.z = b.z) (ha : a.y ≤ 3) (hb : b.y ≤ 3) :
    checkCollision w pr a = checkCollision w pr b := by
  unfold checkCollision
  rw [if_neg (by exact not_lt.mpr ha), if_neg (by exact not_lt.mpr hb)]
  have hblocks : ∀ c : Collidable,
      collidableBlocks pr a c = collidableBlocks pr b c := by
    intro c
    cases c with
    | radial cpos radius => simp [collidableBlocks, hx, hz]
    | box cpos sx sz => simp [collidableBlocks, hx, hz]
  induction w with
  | nil => rfl
  | cons c cs ih => simp [List.any_cons, hblocks c, ih]

/-- Identity keys survive the hit pass unchanged. -/
theorem strikeEnemies_map_fst (e : Engine) (L : Nat → ℚ) :
    (strikeEnemies e L).enemies.map Prod.fst = e.enemies.map Prod.fst := by
  unfold strikeEnemies
  simp [List.map_map, Function.comp]

/-- Hit-pass image of a member of the enemy list. -/
theorem strikeEnemies_mem (e : Engine) (L : Nat → ℚ) (id : Nat)
    (en : EnemyA) (h : (id, en) ∈ e.enemies) :
    (id, hitEnemy e.targetLocked (decide (e.currentTarget = some id))
        e.playerPos e.playerFacing en (L id)) ∈ (strikeEnemies e L).enemies := by
  unfold strikeEnemies
  exact List.mem_map_of_mem _ h

/-- Removing a key under distinct keys removes all of its occurrences. -/
theorem removeFirst_not_mem (id : Nat) (l : List (Nat × EnemyA))
    (hnd : (l.map Prod.fst).Nodup) :
    id ∉ (removeFirst id l).map Prod.fst := by
  induction l with
  | nil => simp [removeFirst]
  | cons q qs ih =>
    rw [List.map_cons, List.nodup_cons] at hnd
    by_cases hq : q.1 = id
    · rw [removeFirst, if_pos hq]
      exact hq ▸ hnd.1
    · rw [removeFirst, if_neg hq, List.map_cons]
      intro hmem
      rcases List.mem_cons.mp hmem with h1 | h2
      · exact hq h1.symm
      · exact ih hnd.2 h2

/-- Invariant of the closest-enemy fold: starting from an accumulator
that is empty or within the acquisition bound, the fold returns none
exactly when the accumulator was empty and no enemy is in range, and
otherwise returns an in-range entry of minimal squared distance among
the list elements and the accumulator. -/
theorem closest_fold_spec (ppos : Vec3) :
    ∀ (es : List (Nat × EnemyA)) (acc : Option ((Nat × EnemyA) × ℚ)),
      (acc = none ∨ ∃ a da, acc = some (a, da) ∧ da < 15 * 15) →
      ((es.foldl (closestStep ppos) acc = none →
          acc = none ∧ ∀ q ∈ es, ¬ dsq3 ppos q.2.pos < 15 * 15)
       ∧ (∀ pr d, es.foldl (closestStep ppos) acc = some (pr, d) →
          d < 15 * 15
          ∧ ((pr ∈ es ∧ d = dsq3 ppos pr.2.pos) ∨ acc = some (pr, d))
          ∧ (∀ q ∈ es, d ≤ dsq3 ppos q.2.pos)
          ∧ (∀ a da, acc = some (a, da) → d ≤ da))) := by
  intro es
  induction es with
  | nil =>
    intro acc hacc
    refine ⟨fun h => ⟨h, by simp⟩, ?_⟩
    intro pr d h
    simp only [List.foldl_nil] at h
    rcases hacc with h0 | ⟨a, da, ha, hda⟩
    · rw [h0] at h; cases h
    · rw [ha] at h
      injection h with h'
      injection h' with h1 h2
      refine ⟨h2 ▸ hda, Or.inr (by rw [ha, h1, h2]), by simp, ?_⟩
      intro a' da' ha'
      rw [ha] at ha'
      injection ha' with ha''
      injection ha'' with h3 h4
      exact le_of_eq (h2.symm.trans h4)
  | cons q qs ih =>
    intro acc hacc
    rw [List.foldl_cons]
    rcases hacc with h0 | ⟨a, da, ha, hda⟩
    · subst h0
      simp only [closestStep]
      by_cases hd0 : dsq3 ppos q.2.pos < 15 * 15
      · rw [if_pos hd0]
        obtain ⟨ihn, ihs⟩ :=
          ih (some (q, dsq3 ppos q.2.pos)) (Or.inr ⟨q, _, rfl, hd0⟩)
        constructor
        · intro h; exact absurd (ihn h).1 (by simp)
        · intro pr d h
          obtain ⟨hd225, horigin, hminq, hle⟩ := ihs pr d h
          refine ⟨hd225, ?_, ?_, fun a' da' h' => by cases h'⟩
          · rcases horigin with ⟨hm, he⟩ | heq
            · exact Or.inl ⟨List.mem_cons_of_mem _ hm, he⟩
            · injection heq with h'
              injection h' with h1 h2
              exact Or.inl ⟨h1 ▸ List.mem_cons_self _ _, h2 ▸ (by rw [h1])⟩
          · intro q' hq'
            rcases List.mem_cons.mp hq' with h1 | h2
            · rw [h1]; exact hle _ _ rfl
            · exact hminq q' h2
      · rw [if_neg hd0]
        obtain ⟨ihn, ihs⟩ := ih none (Or.inl rfl)
        constructor
        · intro h
          refine ⟨by trivial, ?_⟩
          intro q' hq'
          rcases List.mem_cons.mp hq' with h1 | h2
          · rw [h1]; exact hd0
          · exact (ihn h).2 q' h2
        · intro pr d h
          obtain ⟨hd225, horigin, hminq, _⟩ := ihs pr d h
          refine ⟨hd225, ?_, ?_, fun a' da' h' => by cases h'⟩
          · rcases horigin with ⟨hm, he⟩ | heq
            · exact Or.inl ⟨List.mem_cons_of_mem _ hm, he⟩
            · cases heq
          · intro q' hq'
            rcases List.mem_cons.mp hq' with h1 | h2
            · rw [h1]
              exact le_of_lt (lt_of_lt_of_le hd225 (not_lt.mp hd0))
            · exact hminq q' h2
    · subst ha
      simp only [closestStep]
      by_cases hrep : dsq3 ppos q.2.pos < da ∧ dsq3 ppos q.2.pos < 15 * 15
      · rw [if_pos hrep]
        obtain ⟨ihn, ihs⟩ :=
          ih (some (q, dsq3 ppos q.2.pos)) (Or.inr ⟨q, _, rfl, hrep.2⟩)
        constructor
        · intro h; exact absurd (ihn h).1 (by simp)
        · intro pr d h
          obtain ⟨hd225, horigin, hminq, hle⟩ := ihs pr d h
          have hdd0 : d ≤ dsq3 ppos q.2.pos := hle _ _ rfl
          refine ⟨hd225, ?_, ?_, ?_⟩
          · rcases horigin with ⟨hm, he⟩ | heq
            · exact Or.inl ⟨List.mem_cons_of_mem _ hm, he⟩
            · injection heq with h'
              injection h' with h1 h2
              exact Or.inl ⟨h1 ▸ List.mem_cons_self _ _, h2 ▸ (by rw [h1])⟩
          · intro q' hq'
            rcases List.mem_cons.mp hq' with h1 | h2
            · rw [h1]; exact hdd0
            · exact hminq q' h2
          · intro a' da' h'
            injection h' with h''
            injection h'' with _ h3
            exact le_of_lt (lt_of_le_of_lt hdd0 (h3 ▸ hrep.1))
      · rw [if_neg hrep]
        obtain ⟨ihn, ihs⟩ := ih (some (a, da)) (Or.inr ⟨a, da, rfl, hda⟩)
        constructor
        · intro h; exact absurd (ihn h).1 (by simp)
        · intro pr d h
          obtain ⟨hd225, horigin, hminq, hle⟩ := ihs pr d h
          have hdda : d ≤ da := hle a da rfl
          refine ⟨hd225, ?_, ?_, ?_⟩
          · rcases horigin with ⟨hm, he⟩ | heq
            · exact Or.inl ⟨List.mem_cons_of_mem _ hm, he⟩
            · exact Or.inr heq
          · intro q' hq'
            rcases List.mem_cons.mp hq' with h1 | h2
            · rw [h1]
              rcases not_and_or.mp hrep with h3 | h3
              · exact le_trans hdda (le_of_not_lt h3)
              · exact le_of_lt (lt_of_lt_of_le hd225 (not_lt.mp h3))
            · exact hminq q' h2
          · intro a' da' h'
            injection h' with h''
            injection h'' with _ h3
            exact h3 ▸ hdda

/-- Emptiness of the closest-enemy scan: no result exactly when no
enemy lies within the acquisition radius. -/
theorem findClosest_eq_none (ppos : Vec3) (es : List (Nat × EnemyA)) :
    findClosest ppos es = none ↔
      ∀ q ∈ es, ¬ dsq3 ppos q.2.pos < 15 * 15 := by
  constructor
  · intro h
    exact ((closest_fold_spec ppos es none (Or.inl rfl)).1 h).2
  · intro hall
    cases hfc : findClosest ppos es with
    | none => rfl
    | some pr =>
      obtain ⟨hd225, horigin, _, _⟩ :=
        (closest_fold_spec ppos es none (Or.inl rfl)).2 pr.1 pr.2 hfc
      rcases horigin with ⟨hm, he⟩ | heq
      · exact absurd (he ▸ hd225) (hall pr.1 hm)
      · cases heq

/-- Soundness of the closest-enemy scan: a returned entry is a list
member in range, its recorded distance is its squared distance, and it
is minimal among all enemies. -/
theorem findClosest_eq_some (ppos : Vec3) (es : List (Nat × EnemyA))
    (pr : Nat × EnemyA) (d : ℚ) (h : findClosest ppos es = some (pr, d)) :
    pr ∈ es ∧ d = dsq3 ppos pr.2.pos ∧ d < 15 * 15 ∧
      ∀ q ∈ es, d ≤ dsq3 ppos q.2.pos := by
  obtain ⟨hd225, horigin, hmin, _⟩ :=
    (closest_fold_spec ppos es none (Or.inl rfl)).2 pr d h
  rcases horigin with ⟨hm, he⟩ | heq
  · exact ⟨hm, he, hd225, hmin⟩
  · cases heq

/-- C1: for a radial collidable (tree, sign, rock) the collision query
blocks exactly when the planar X/Z distance from the candidate to the
collidable is below actorRadius plus 0.8 times the collidable radius;
for a box collidable (house) exactly when the candidate's X and Z lie
strictly inside the extents expanded by actorRadius on each axis; and
any candidate above height 3.0 is never blocked. -/
theorem checkCollision_spec (pr : ℚ) (p : Vec3) :
    (∀ cpos radius, p.y ≤ 3 →
      (checkCollision [Collidable.radial cpos radius] pr p = true ↔
        Real.sqrt (((p.x - cpos.x : ℚ) : ℝ) ^ 2 +
            ((p.z - cpos.z : ℚ) : ℝ) ^ 2) <
          ((pr + radius * (4/5) : ℚ) : ℝ)))
    ∧ (∀ cpos sizeX sizeZ, p.y ≤ 3 →
      (checkCollision [Collidable.box cpos sizeX sizeZ] pr p = true ↔
        (cpos.x - sizeX / 2 - pr < p.x ∧ p.x < cpos.x + sizeX / 2 + pr ∧
         cpos.z - sizeZ / 2 - pr < p.z ∧ p.z < cpos.z + sizeZ / 2 + pr)))
    ∧ (∀ collidables : List Collidable, 3 < p.y →
        checkCollision collidables pr p = false) := by
  refine ⟨?_, ?_, ?_⟩
  · intro cpos radius hy
    have hcast : (((p.x - cpos.x) * (p.x - cpos.x) +
        (p.z - cpos.z) * (p.z - cpos.z) : ℚ) : ℝ) =
        ((p.x - cpos.x : ℚ) : ℝ) ^ 2 + ((p.z - cpos.z : ℚ) : ℝ) ^ 2 := by
      push_cast
      ring
    rw [checkCollision, if_neg (not_lt.mpr hy)]
    simp only [List.any_cons, List.any_nil, Bool.or_false]
    simp only [collidableBlocks]
    rw [sqrtLtB_iff, hcast]
  · intro cpos sizeX sizeZ hy
    rw [checkCollision, if_neg (not_lt.mpr hy)]
    simp only [List.any_cons, List.any_nil, Bool.or_false]
    simp only [collidableBlocks]
    rw [decide_eq_true_iff]
  · intro collidables hy
    rw [checkCollision, if_pos hy]

/-- Witness for C1 at a concrete input: a candidate at (0.5, 1, 0.5)
inside a house footprint of size 2 by 2 at the origin is blocked. -/
theorem checkCollision_spec_w :
    checkCollision [Collidable.box ⟨0, 0, 0⟩ 2 2] (3/10) ⟨1/2, 1, 1/2⟩
      = true :=
  ((checkCollision_spec (3/10) ⟨1/2, 1, 1/2⟩).2.1 ⟨0, 0, 0⟩ 2 2
      (by norm_num)).mpr (by norm_num)

/-- C2: the movement resolution commits the first clear candidate in the
order full vector, X-only slide, Z-only slide, elevated step, each
gated by the collision query, and leaves the position unchanged when
all four are blocked. -/
theorem resolveMovement_fallback_order (world : List Collidable) (pr : ℚ)
    (pos newPos : Vec3) :
    (checkCollision world pr newPos = false →
        resolveMovement (checkCollision world pr) pos newPos = newPos)
    ∧ (checkCollision world pr newPos = true →
       checkCollision world pr (slideX pos newPos) = false →
        resolveMovement (checkCollision world pr) pos newPos
          = slideX pos newPos)
    ∧ (checkCollision world pr newPos = true →
       checkCollision world pr (slideX pos newPos) = true →
       checkCollision world pr (slideZ pos newPos) = false →
        resolveMovement (checkCollision world pr) pos newPos
          = slideZ pos newPos)
    ∧ (checkCollision world pr newPos = true →
       checkCollision world pr (slideX pos newPos) = true →
       checkCollision world pr (slideZ pos newPos) = true →
       checkCollision world pr (elevated newPos) = false →
        resolveMovement (checkCollision world pr) pos newPos
          = elevated newPos)
    ∧ (checkCollision world pr newPos = true →
       checkCollision world pr (slideX pos newPos) = true →
       checkCollision world pr (slideZ pos newPos) = true →
       checkCollision world pr (elevated newPos) = true →
        resolveMovement (checkCollision world pr) pos newPos = pos) := by
  refine ⟨?_, ?_, ?_, ?_, ?_⟩ <;> intros <;> simp [resolveMovement, *]

/-- Witness for C2 at a concrete input: a diagonal step blocked on the
full vector by a rock but clear along X resolves to the X-only slide. -/
theorem resolveMovement_fallback_order_w :
    resolveMovement
        (checkCollision [Collidable.radial ⟨1/2, 0, 1⟩ (1/2)] (3/10))
        ⟨0, 1, 0⟩ ⟨1/2, 1, 1/2⟩
      = slideX ⟨0, 1, 0⟩ ⟨1/2, 1, 1/2⟩ :=
  (resolveMovement_fallback_order [Collidable.radial ⟨1/2, 0, 1⟩ (1/2)]
      (3/10) ⟨0, 1, 0⟩ ⟨1/2, 1, 1/2⟩).2.1
    (by norm_num [checkCollision, collidableBlocks, sqrtLtB])
    (by norm_num [checkCollision, collidableBlocks, sqrtLtB, slideX])

/-- C3: when the mid-swing hit pass strikes the current lock target,
whose health was 1, the target's health reaches 0 and the subsequent
death-removal callback removes it from the live-enemy set and
force-clears the lock: afterwards the locked flag is false and the
target reference is null, so the lock state never dangles. -/
theorem attack_death_clears_lock (e : Engine) (id : Nat) (en : EnemyA)
    (L : Nat → ℚ) (hmem : (id, en) ∈ e.enemies)
    (hnd : (e.enemies.map Prod.fst).Nodup)
    (htar : e.currentTarget = some id) (hh : en.health = 1)
    (hhit : hitCondition e.targetLocked true e.playerPos e.playerFacing en
      = true) :
    (id, applyHit e.playerPos en (L id)) ∈ (strikeEnemies e L).enemies
    ∧ (applyHit e.playerPos en (L id)).health = 0
    ∧ (deathPath e id L).targetLocked = false
    ∧ (deathPath e id L).currentTarget = none
    ∧ id ∉ (deathPath e id L).enemies.map Prod.fst := by
  have hdec : (decide (e.currentTarget = some id)) = true := by simp [htar]
  refine ⟨?_, ?_, ?_, ?_, ?_⟩
  · have h1 := strikeEnemies_mem e L id en hmem
    rw [hdec] at h1
    rwa [hitEnemy, if_pos (by rw [hhit])] at h1
  · simp [applyHit, hh]
  · simp [deathPath, removeDeadEnemy, strikeEnemies, htar]
  · simp [deathPath, removeDeadEnemy, strikeEnemies, htar]
  · have hnd' : ((strikeEnemies e L).enemies.map Prod.fst).Nodup := by
      rw [strikeEnemies_map_fst]
      exact hnd
    have h2 := removeFirst_not_mem id (strikeEnemies e L).enemies hnd'
    simpa [deathPath, removeDeadEnemy, strikeEnemies, htar] using h2

/-- Witness for C3 at a concrete input: locked onto the single enemy
one unit ahead with health 1, the hit-and-removal path clears the lock. -/
theorem attack_death_clears_lock_w :
    (0, applyHit engineLockedOne.playerPos ⟨⟨0, 1, 1⟩, 1⟩ 1)
        ∈ (strikeEnemies engineLockedOne (fun _ => 1)).enemies
    ∧ (applyHit engineLockedOne.playerPos ⟨⟨0, 1, 1⟩, 1⟩ 1).health = 0
    ∧ (deathPath engineLockedOne 0 (fun _ => 1)).targetLocked = false
    ∧ (deathPath engineLockedOne 0 (fun _ => 1)).currentTarget = none
    ∧ 0 ∉ (deathPath engineLockedOne 0 (fun _ => 1)).enemies.map Prod.fst :=
  attack_death_clears_lock engineLockedOne 0 ⟨⟨0, 1, 1⟩, 1⟩ (fun _ => 1)
    (by simp [engineLockedOne]) (by simp [engineLockedOne])
    (by simp [engineLockedOne]) rfl
    (by norm_num [engineLockedOne, hitCondition, attackRange,
      attackRangeCheck, dsq3, sqrtLtB])

/-- Counterexample for C4: with the lock flag set but the live-enemy
list empty, toggling is an early-returning no-op, so the lock state is
not cleared and the stale target reference survives. -/
theorem toggleTargetLock_locked_empty_ce :
    engineLockedNoEnemies.targetLocked = true
    ∧ (toggleTargetLock engineLockedNoEnemies 1).targetLocked = true
    ∧ (toggleTargetLock engineLockedNoEnemies 1).currentTarget = some 0 := by
  refine ⟨rfl, ?_, ?_⟩ <;> simp [toggleTargetLock, engineLockedNoEnemies]

/-- C4 (amended): whenever the lock flag is set and the live-enemy list
is nonempty, toggling clears the lock: the flag becomes false and the
target reference null. -/
theorem toggleTargetLock_clears (e : Engine) (L : ℚ)
    (hlk : e.targetLocked = true) (hne : e.enemies ≠ []) :
    (toggleTargetLock e L).targetLocked = false
    ∧ (toggleTargetLock e L).currentTarget = none := by
  have hlen : ¬ e.enemies.length = 0 := by
    simpa [List.length_eq_zero] using hne
  rw [toggleTargetLock, if_neg hlen, if_neg (by rw [hlk]; simp)]
  exact ⟨rfl, rfl⟩

/-- Witness for C4 (amended) at a concrete input: toggling while locked
with one live enemy clears flag and reference. -/
theorem toggleTargetLock_clears_w :
    (toggleTargetLock engineLockedOne 1).targetLocked = false
    ∧ (toggleTargetLock engineLockedOne 1).currentTarget = none :=
  toggleTargetLock_clears engineLockedOne 1 rfl (by simp [engineLockedOne])

/-- C5: a live enemy at planar distance 1.0 directly ahead of the
player (same height, inside the 45-degree cone and the default range,
no lock) is hit by the mid-swing pass: its health drops by exactly one
(the floor at 0 not engaging while it was alive), it is knocked back
one unit horizontally away from the player with no vertical component,
and its height is clamped to the minimum of 0.8. -/
theorem attack_hit_ahead (px py pz h : ℚ) (hh : 1 ≤ h) :
    hitCondition false false ⟨px, py, pz⟩ ⟨0, 0, 1⟩
        ⟨⟨px, py, pz + 1⟩, h⟩ = true
    ∧ hitEnemy false false ⟨px, py, pz⟩ ⟨0, 0, 1⟩
        ⟨⟨px, py, pz + 1⟩, h⟩ 1
        = ⟨⟨px, max py (4/5), pz + 2⟩, h - 1⟩ := by
  have hcond :
      hitCondition false false ⟨px, py, pz⟩ ⟨0, 0, 1⟩
        ⟨⟨px, py, pz + 1⟩, h⟩ = true := by
    simp only [hitCondition, attackRange, attackRangeCheck, dsq3, sqrtLtB,
      inAttackAngle, Bool.false_and, Bool.and_eq_true, Bool.or_eq_true,
      decide_eq_true_iff]
    norm_num
  have hfloor : max 0 (h - 1) = h - 1 := by
    rw [max_eq_right]
    linarith
  have hx : px + (px - px) / 1 * 1 = px := by ring
  have hz : pz + 1 + (pz + 1 - pz) / 1 * 1 = pz + 2 := by ring
  refine ⟨hcond, ?_⟩
  rw [hitEnemy, if_pos (by rw [hcond])]
  simp only [applyHit]
  rw [hx, hz, hfloor]

/-- Witness for C5 at a concrete input: player at (0, 1, 0), enemy one
unit ahead with health 2. -/
theorem attack_hit_ahead_w :
    hitCondition false false ⟨0, 1, 0⟩ ⟨0, 0, 1⟩ ⟨⟨0, 1, 1⟩, 2⟩ = true
    ∧ hitEnemy false false ⟨0, 1, 0⟩ ⟨0, 0, 1⟩ ⟨⟨0, 1, 1⟩, 2⟩ 1
        = ⟨⟨0, 1, 2⟩, 1⟩ := by
  have h := attack_hit_ahead 0 1 0 2 (by norm_num)
  rw [show (0 : ℚ) + 1 = 1 from by norm_num,
      show (0 : ℚ) + 2 = 2 from by norm_num,
      show max (1 : ℚ) (4/5) = 1 from max_eq_left (by norm_num),
      show (2 : ℚ) - 1 = 1 from by norm_num] at h
  exact h

/-- Counterexample for C6: the hit test's range comparison is not the
planar distance.  With the player at the origin facing +Z and an enemy
at (0, 2, 1), the planar distance is 1 (inside the default range 2) but
the code's comparison uses the 3-D distance sqrt 5 > 2, so the enemy is
not hit; lowering the same enemy to the player's height makes the very
same test succeed, so vertical separation does enter the comparison. -/
theorem attackRange_not_planar_ce :
    attackRangeCheck ⟨0, 0, 0⟩ ⟨0, 2, 1⟩ 2 = false
    ∧ planarRangeCheck ⟨0, 0, 0⟩ ⟨0, 2, 1⟩ 2 = true
    ∧ hitCondition false false ⟨0, 0, 0⟩ ⟨0, 0, 1⟩ ⟨⟨0, 2, 1⟩, 2⟩ = false
    ∧ hitCondition false false ⟨0, 0, 0⟩ ⟨0, 0, 1⟩ ⟨⟨0, 0, 1⟩, 2⟩ = true := by
  refine ⟨?_, ?_, ?_, ?_⟩ <;>
    norm_num [attackRangeCheck, planarRangeCheck, hitCondition, attackRange,
      inAttackAngle, swordTip, dsq3, sqrtLtB]

/-- C6 (amended): the distance the attack hit test compares against the
effective range is the full 3-D Euclidean distance between the player
and the enemy, so the vertical separation enters the comparison. -/
theorem attackRangeCheck_uses_3d (ppos epos : Vec3) (range : ℚ) :
    attackRangeCheck ppos epos range = true ↔
      Real.sqrt (((epos.x - ppos.x : ℚ) : ℝ) ^ 2 +
          ((epos.y - ppos.y : ℚ) : ℝ) ^ 2 +
          ((epos.z - ppos.z : ℚ) : ℝ) ^ 2) < (range : ℝ) := by
  have hcast : ((dsq3 ppos epos : ℚ) : ℝ) =
      ((epos.x - ppos.x : ℚ) : ℝ) ^ 2 + ((epos.y - ppos.y : ℚ) : ℝ) ^ 2 +
        ((epos.z - ppos.z : ℚ) : ℝ) ^ 2 := by
    rw [dsq3]
    push_cast
    ring
  rw [attackRangeCheck, sqrtLtB_iff, hcast]

/-- C7: with the lock not engaged, toggling acquires the closest live
enemy within the fixed radius 15 (measured from the player), marks the
lock, records that enemy as the target and turns the player toward it
on the horizontal plane; when no enemy is within the radius the toggle
is a no-op. -/
theorem toggleTargetLock_acquire (e : Engine) (L : ℚ)
    (hA : e.targetLocked = false) :
    ((∀ q ∈ e.enemies, ¬ dsq3 e.playerPos q.2.pos < 15 * 15) →
        toggleTargetLock e L = e)
    ∧ (∀ q ∈ e.enemies, dsq3 e.playerPos q.2.pos < 15 * 15 →
        (toggleTargetLock e L).targetLocked = true
        ∧ ∃ id en, (id, en) ∈ e.enemies
            ∧ (toggleTargetLock e L).currentTarget = some id
            ∧ dsq3 e.playerPos en.pos < 15 * 15
            ∧ (∀ r ∈ e.enemies,
                dsq3 e.playerPos en.pos ≤ dsq3 e.playerPos r.2.pos)
            ∧ (L * L = dsq3 e.playerPos en.pos →
                (toggleTargetLock e L).playerFacing
                  = ⟨(en.pos.x - e.playerPos.x) / L, 0,
                     (en.pos.z - e.playerPos.z) / L⟩)) := by
  constructor
  · intro hall
    by_cases hlen : e.enemies.length = 0
    · rw [toggleTargetLock, if_pos hlen]
    · rw [toggleTargetLock, if_neg hlen, if_pos hA,
        (findClosest_eq_none _ _).mpr hall]
  · intro q hq hqr
    have hne : ¬ e.enemies.length = 0 := by
      intro h0
      rw [List.length_eq_zero] at h0
      rw [h0] at hq
      cases hq
    cases hfc : findClosest e.playerPos e.enemies with
    | none => exact absurd hqr ((findClosest_eq_none _ _).mp hfc q hq)
    | some pr =>
      obtain ⟨⟨id, en⟩, d⟩ := pr
      obtain ⟨hm, hd, h225, hmin⟩ := findClosest_eq_some _ _ _ _ hfc
      have hres : toggleTargetLock e L =
          { e with currentTarget := some id, targetLocked := true,
                   playerFacing :=
                     ⟨(en.pos.x - e.playerPos.x) / L, 0,
                      (en.pos.z - e.playerPos.z) / L⟩ } := by
        rw [toggleTargetLock, if_neg hne, if_pos hA, hfc]
      rw [hres]
      exact ⟨rfl, id, en, hm, rfl, hd ▸ h225,
        fun r hr => hd ▸ hmin r hr, fun _ => rfl⟩

/-- Witness for C7 at a concrete input: two enemies at squared
distances 9 and 81; the toggle locks onto the nearer one and faces it. -/
theorem toggleTargetLock_acquire_w :
    (toggleTargetLock engineFreeTwoEnemies 3).targetLocked = true
    ∧ ∃ id en, (id, en) ∈ engineFreeTwoEnemies.enemies
        ∧ (toggleTargetLock engineFreeTwoEnemies 3).currentTarget = some id
        ∧ dsq3 engineFreeTwoEnemies.playerPos en.pos < 15 * 15
        ∧ (∀ r ∈ engineFreeTwoEnemies.enemies,
            dsq3 engineFreeTwoEnemies.playerPos en.pos
              ≤ dsq3 engineFreeTwoEnemies.playerPos r.2.pos)
        ∧ (3 * 3 = dsq3 engineFreeTwoEnemies.playerPos en.pos →
            (toggleTargetLock engineFreeTwoEnemies 3).playerFacing
              = ⟨(en.pos.x - engineFreeTwoEnemies.playerPos.x) / 3, 0,
                 (en.pos.z - engineFreeTwoEnemies.playerPos.z) / 3⟩) :=
  (toggleTargetLock_acquire engineFreeTwoEnemies 3 rfl).2
    (0, ⟨⟨0, 1, 3⟩, 2⟩) (by simp [engineFreeTwoEnemies])
    (by norm_num [engineFreeTwoEnemies, dsq3])

/-- C8: calling attack while the attacking flag is set is a no-op: the
engine state (player, enemies, lock) is returned unchanged and no new
swing or mid-swing hit pass is scheduled. -/
theorem attack_guard (e : Engine) (L : ℚ) (h : e.isAttacking = true) :
    attack e L = (e, false) := by
  rw [attack, if_pos h]

/-- Witness for C8 at a concrete input. -/
theorem attack_guard_w : attack engineMidAttack 1 = (engineMidAttack, false) :=
  attack_guard engineMidAttack 1 rfl

/-- Height preservation through the sliding fallback chain: from ground
height with a ground-height candidate, the resolved position stays at
ground height (the elevated fallback can never commit, because below the
height-3 escape valve the collision query ignores height, so the
elevated candidate is blocked whenever the full candidate is). -/
theorem resolveMovement_y (world : List Collidable) (pr : ℚ)
    (pos newPos : Vec3) (hpos : pos.y = 1) (hnp : newPos.y = 1) :
    (resolveMovement (checkCollision world pr) pos newPos).y = 1 := by
  cases h1 : checkCollision world pr newPos with
  | false => simp [resolveMovement, h1, hnp]
  | true =>
    cases h2 : checkCollision world pr (slideX pos newPos) with
    | false =>
      have hres : resolveMovement (checkCollision world pr) pos newPos
          = slideX pos newPos := by
        simp [resolveMovement, h1, h2]
      rw [hres]
      simp [slideX, hpos]
    | true =>
      cases h3 : checkCollision world pr (slideZ pos newPos) with
      | false =>
        have hres : resolveMovement (checkCollision world pr) pos newPos
            = slideZ pos newPos := by
          simp [resolveMovement, h1, h2, h3]
        rw [hres]
        simp [slideZ, hpos]
      | true =>
        have helev : checkCollision world pr (elevated newPos) = true := by
          rw [checkCollision_y_indep world pr (elevated newPos) newPos rfl rfl
            (by show newPos.y + 1/10 ≤ 3; rw [hnp]; norm_num)
            (by rw [hnp]; norm_num)]
          exact h1
        simp [resolveMovement, h1, h2, h3, helev, hpos]

/-- Grounded single tick with no jump input and a horizontal movement
direction: vertical position, vertical velocity and the grounded flag
are all preserved. -/
theorem tick_grounded (world : List Collidable)
    (pr speed jumpHeight dt : ℚ) (moving : Bool) (dirUnit : Vec3)
    (p : PState) (hdir : dirUnit.y = 0) (hg : p.onGround = true)
    (hy : p.pos.y = 1) :
    (tick (checkCollision world pr) speed jumpHeight dt moving dirUnit
        false p).pos.y = 1
    ∧ (tick (checkCollision world pr) speed jumpHeight dt moving dirUnit
        false p).velY = p.velY
    ∧ (tick (checkCollision world pr) speed jumpHeight dt moving dirUnit
        false p).onGround = true := by
  have hmove :
      (moveStep (checkCollision world pr) speed dt moving dirUnit p).pos.y = 1
      ∧ (moveStep (checkCollision world pr) speed dt moving dirUnit p).velY
          = p.velY
      ∧ (moveStep (checkCollision world pr) speed dt moving dirUnit
          p).onGround = true := by
    cases moving with
    | false => exact ⟨hy, rfl, hg⟩
    | true =>
      refine ⟨?_, rfl, hg⟩
      have hnp : (p.pos + (speed * dt) • dirUnit).y = 1 := by
        simp [hdir, hy]
      simpa [moveStep] using resolveMovement_y world pr p.pos _ hy hnp
  obtain ⟨hm1, hm2, hm3⟩ := hmove
  have hjump : jumpStep false jumpHeight
      (moveStep (checkCollision world pr) speed dt moving dirUnit p)
      = moveStep (checkCollision world pr) speed dt moving dirUnit p := by
    simp [jumpStep]
  rw [tick, hjump, gravityStep, if_pos hm3]
  exact ⟨hm1, hm2, hm3⟩

/-- C9: a grounded actor at the ground reference height stays a fixed
point of the locomotion tick under any sequence of ticks with no jump
input (movement inputs are horizontal, so they cannot change height
while grounded): vertical position, vertical velocity and the grounded
flag are unchanged. -/
theorem grounded_run_fixed (world : List Collidable)
    (pr speed jumpHeight : ℚ) (ins : List TickInput)
    (hj : ∀ i ∈ ins, i.jumpKey = false)
    (hd : ∀ i ∈ ins, i.dirUnit.y = 0)
    (p : PState) (hg : p.onGround = true) (hy : p.pos.y = 1) :
    (runTicks (checkCollision world pr) speed jumpHeight ins p).pos.y = 1
    ∧ (runTicks (checkCollision world pr) speed jumpHeight ins p).velY
        = p.velY
    ∧ (runTicks (checkCollision world pr) speed jumpHeight ins p).onGround
        = true := by
  induction ins generalizing p with
  | nil => exact ⟨hy, rfl, hg⟩
  | cons i is ih =>
    have hji : i.jumpKey = false := hj i (List.mem_cons_self _ _)
    have hdi : i.dirUnit.y = 0 := hd i (List.mem_cons_self _ _)
    have ht := tick_grounded world pr speed jumpHeight i.dt i.moving
      i.dirUnit p hdi hg hy
    have hrun : runTicks (checkCollision world pr) speed jumpHeight
        (i :: is) p = runTicks (checkCollision world pr) speed jumpHeight is
        (tick (checkCollision world pr) speed jumpHeight i.dt i.moving
          i.dirUnit false p) := by
      rw [runTicks, List.foldl_cons, hji]
      rfl
    rw [hrun]
    have hrec := ih (fun j hj' => hj j (List.mem_cons_of_mem _ hj'))
      (fun j hj' => hd j (List.mem_cons_of_mem _ hj')) _ ht.2.2 ht.1
    exact ⟨hrec.1, hrec.2.1.trans ht.2.1, hrec.2.2⟩

/-- Witness for C9 at a concrete input: one tick of pure horizontal
movement from the grounded start state leaves the vertical state alone. -/
theorem grounded_run_fixed_w :
    (runTicks (checkCollision [] (3/10)) 5 5
        [⟨true, ⟨1, 0, 0⟩, false, 1/60⟩] ⟨⟨0, 1, 0⟩, 0, true⟩).pos.y = 1
    ∧ (runTicks (checkCollision [] (3/10)) 5 5
        [⟨true, ⟨1, 0, 0⟩, false, 1/60⟩] ⟨⟨0, 1, 0⟩, 0, true⟩).velY = 0
    ∧ (runTicks (checkCollision [] (3/10)) 5 5
        [⟨true, ⟨1, 0, 0⟩, false, 1/60⟩] ⟨⟨0, 1, 0⟩, 0, true⟩).onGround
        = true :=
  grounded_run_fixed [] (3/10) 5 5 [⟨true, ⟨1, 0, 0⟩, false, 1/60⟩]
    (by simp) (by simp) ⟨⟨0, 1, 0⟩, 0, true⟩ rfl rfl

/-- C10: for a nonnegative damage amount, the player's health after
takeDamage equals the maximum of 0 and the previous health minus the
amount; in particular it never becomes negative. -/
theorem takeDamage_health (e : Engine) (amount L : ℚ) (_h : 0 ≤ amount) :
    (takeDamage e amount L).playerHealth = max 0 (e.playerHealth - amount)
    ∧ 0 ≤ (takeDamage e amount L).playerHealth := by
  constructor
  · simp [takeDamage]
  · simp only [takeDamage]
    exact le_max_left _ _

/-- Witness for C10 at a concrete input: damage 5 against health 3
clamps to 0. -/
theorem takeDamage_health_w :
    (takeDamage engineLockedOne 5 1).playerHealth
        = max 0 (engineLockedOne.playerHealth - 5)
    ∧ 0 ≤ (takeDamage engineLockedOne 5 1).playerHealth :=
  takeDamage_health engineLockedOne 5 1 (by norm_num)

end Zelda
